import Mathlib

/-!
Shallow embedding of the lost-and-found assistant pipeline
(`core/ai_assistant.py`, `core/views.py`, `core/serializers.py`).

Python floats are modelled as real numbers; external effects (the OpenAI
embedding and chat calls, the database) are passed in as explicit inputs,
and the calls a function makes are returned as an explicit trace.
-/

namespace Backend

/-- JSON values as produced by Python's `json.loads`.  Python distinguishes
`int` from `float`; floats are modelled as rationals. -/
inductive JValue where
  | null
  | bool (b : Bool)
  | int (n : Int)
  | float (q : Rat)
  | str (s : String)
  | arr (xs : List JValue)
  | obj (kvs : List (String × JValue))

/-- Truncation toward zero, Python's `int(float)`. -/
def ratTruncate (q : Rat) : Int :=
  if 0 ≤ q then q.floor else -((-q).floor)

/-- Parse a run of decimal digits with Python's underscore rule:
an underscore may appear only between two digits. -/
def pyDigitsAux : List Char → Nat → Option Nat
  | [], acc => some acc
  | c :: cs, acc =>
    if c.isDigit then pyDigitsAux cs (acc * 10 + (c.toNat - 48))
    else if c = '_' then
      match cs with
      | c2 :: _ => if c2.isDigit then pyDigitsAux cs acc else none
      | [] => none
    else none

/-- Python `int(s)` on the digit part: nonempty, starts with a digit. -/
def pyDigits : List Char → Option Nat
  | [] => none
  | c :: cs => if c.isDigit then pyDigitsAux (c :: cs) 0 else none

/-- Python whitespace (`str.strip()` / `str.split()` ASCII classes). -/
def isPySpace (c : Char) : Bool :=
  c == ' ' || c == '\t' || c == '\n' || c == '\r' || c == '\x0b' || c == '\x0c'

/-- Python `str.strip()` on the character list. -/
def pyStripChars (cs : List Char) : List Char :=
  ((cs.dropWhile isPySpace).reverse.dropWhile isPySpace).reverse

/-- Python `str.strip()`. -/
def pyStrip (s : String) : String :=
  String.mk (pyStripChars s.data)

/-- Python `int(s)` for a string: strip surrounding whitespace, optional
sign, then decimal digits; `ValueError` (`none`) otherwise. -/
def pyIntOfString (s : String) : Option Int :=
  match pyStripChars s.data with
  | '+' :: rest => (pyDigits rest).map (Int.ofNat)
  | '-' :: rest => (pyDigits rest).map (fun n => -(Int.ofNat n))
  | rest => (pyDigits rest).map (Int.ofNat)

/-- Python `int(x)` on a JSON value: ints pass through, bools are 0/1,
floats truncate toward zero, strings are parsed; `null`, arrays and
objects raise `TypeError` (`none`). -/
def pyInt : JValue → Option Int
  | .int n => some n
  | .bool b => some (if b then 1 else 0)
  | .float q => some (ratTruncate q)
  | .str s => pyIntOfString s
  | .null => none
  | .arr _ => none
  | .obj _ => none

/-- The sanitization loop of `_pick_items_with_llm` (lines 118–125):
coerce each returned identifier with `int`, skip coercion failures,
keep it only when it is a candidate id not already picked. -/
def pickLoop (candidateIds : List Int) : List JValue → List Int → List Int
  | [], acc => acc
  | v :: vs, acc =>
    match pyInt v with
    | none => pickLoop candidateIds vs acc
    | some n =>
      if n ∈ candidateIds ∧ n ∉ acc then pickLoop candidateIds vs (acc ++ [n])
      else pickLoop candidateIds vs acc

/-- Keep the first occurrence of each element, dropping later duplicates
(specification-level description of duplicate removal). -/
def dedupKeepFirst : List Int → List Int
  | [] => []
  | n :: ns => n :: (dedupKeepFirst ns).filter (· ≠ n)

/-- First occurrence of each string, in order (Python dict key order). -/
def dedupKeepFirstStr : List String → List String
  | [] => []
  | s :: ss => s :: (dedupKeepFirstStr ss).filter (· ≠ s)

/-- Model of `parsed.get(key, default)` on a JSON object: Python's `json.loads`
keeps the last occurrence of a duplicated key. -/
def jsonLookup (kvs : List (String × JValue)) (key : String) : Option JValue :=
  (kvs.reverse.find? (fun kv => kv.1 = key)).map (·.2)

/-- Python iteration (`for x in v`): lists yield elements, strings yield
one-character strings, dicts yield their keys; other values raise
`TypeError` (`none`). -/
def pyIterate : JValue → Option (List JValue)
  | .arr xs => some xs
  | .str s => some (s.data.map (fun c => .str (String.mk [c])))
  | .obj kvs => some ((dedupKeepFirstStr (kvs.map (·.1))).map .str)
  | _ => none

/-- Python exceptions that the selector code can raise. -/
inductive PyErr where
  | jsonDecodeError
  | attributeError
  | typeError
  | indexError
  deriving Repr, DecidableEq

/-- The value `_pick_items_with_llm` returns (ai_assistant.py 127–130). -/
structure PickResult where
  friendly_response : String
  picked_item_ids : List Int
  deriving Repr, DecidableEq

/-- Lines 118–130 of `_pick_items_with_llm`, applied to the result of
`json.loads`: iterate `parsed.get("picked_item_ids", [])` (a non-iterable
value raises `TypeError`, `parsed.get` on a non-dict raises
`AttributeError`), sanitize with `pickLoop`, then build the result where
`parsed.get("friendly_response", "").strip()` raises `AttributeError`
on a non-string, and the picked list is capped with `[:5]`. -/
def pickFromParsed (candidateIds : List Int) (parsed : JValue) :
    Except PyErr PickResult :=
  match parsed with
  | .obj kvs =>
    match pyIterate ((jsonLookup kvs "picked_item_ids").getD (.arr [])) with
    | none => .error .typeError
    | some vals =>
      match (jsonLookup kvs "friendly_response").getD (.str "") with
      | .str s => .ok ⟨pyStrip s, (pickLoop candidateIds vals []).take 5⟩
      | _ => .error .attributeError
  | _ => .error .attributeError

/-- The chat completion content seen by `_pick_items_with_llm`: `absent`
models `content` being `None` or empty (line 115 replaces it with `"{}"`),
`invalid` a string `json.loads` rejects, `valid v` a string parsing
to `v`. -/
inductive LLMContent where
  | absent
  | invalid
  | valid (v : JValue)

/-- Model of `json.loads(raw_content)` at line 116, with `or "{}"` from 115. -/
def loadsChatContent : LLMContent → Except PyErr JValue
  | .absent => .ok (.obj [])
  | .invalid => .error .jsonDecodeError
  | .valid v => .ok v

/-- The candidate payload handed to the reasoning model
(ai_assistant.py 157–168). -/
structure Candidate where
  id : Int
  title : String
  description : String
  location : String
  tags : List String
  cosine_score : ℝ

/-- Canned reply of `_pick_items_with_llm` for an empty candidate list. -/
def noCandidatesMessage : String :=
  "I couldn't find matching items yet. Try adding more details like color, brand, and where you lost it."

/-- Model of `_pick_items_with_llm` (ai_assistant.py 80–130): with no candidates,
return the canned reply and no picks without calling the model; otherwise
parse the model's content and sanitize against the candidate id set. -/
def pickItemsWithLLM (candidates : List Candidate) (content : LLMContent) :
    Except PyErr PickResult :=
  if candidates.isEmpty then
    .ok ⟨noCandidatesMessage, []⟩
  else
    match loadsChatContent content with
    | .error e => .error e
    | .ok parsed => pickFromParsed (candidates.map (·.id)) parsed

/-! ### Vectors and similarity -/

/-- Python `sum(a * b for a, b in zip(vec_a, vec_b))`. -/
noncomputable def dotProd (a b : List ℝ) : ℝ :=
  ((a.zip b).map (fun p => p.1 * p.2)).sum

/-- Python `sum(a * a for a in vec)`. -/
noncomputable def sumSquares (a : List ℝ) : ℝ :=
  (a.map (fun x => x * x)).sum

/-- Python `math.sqrt(sum(a * a for a in vec))`. -/
noncomputable def vecNorm (a : List ℝ) : ℝ :=
  Real.sqrt (sumSquares a)

open Classical in
/-- Model of `_cosine_similarity` (ai_assistant.py 50–59). -/
noncomputable def cosineSimilarity (a b : List ℝ) : ℝ :=
  if a.isEmpty || b.isEmpty || a.length != b.length then -1
  else if vecNorm a = 0 ∨ vecNorm b = 0 then -1
  else dotProd a b / (vecNorm a * vecNorm b)

/-! ### Catalog items and embedding synchronization -/

/-- A catalog item as the assistant sees it (id, text fields, tag names,
optional embedding vector). -/
structure Item where
  id : Int
  title : String
  description : String
  location : String
  tags : List String
  embedding : Option (List ℝ)

/-- Python truthiness of the `embedding` JSON field: `None` and `[]` are
falsy (`if not item.embedding`). -/
def hasEmbedding (e : Option (List ℝ)) : Bool :=
  match e with
  | none => false
  | some v => !v.isEmpty

/-- Model of `_build_item_text` (ai_assistant.py 14–21). -/
def buildItemText (it : Item) : String :=
  "title: " ++ it.title ++ "\n" ++
  "description: " ++ it.description ++ "\n" ++
  "location: " ++ it.location ++ "\n" ++
  "tags: " ++ String.intercalate ", " it.tags

/-- The in-place mutation of the working list in `_ensure_item_embeddings`
(lines 75–76): walk the items, assigning the next computed vector to each
item lacking an embedding until the vectors run out. -/
def applyEmbeddings : List (List ℝ) → List Item → List Item
  | _, [] => []
  | [], its => its
  | e :: es, it :: rest =>
    if hasEmbedding it.embedding then it :: applyEmbeddings (e :: es) rest
    else { it with embedding := some e } :: applyEmbeddings es rest

/-- The mutation of `items_to_embed` by `zip(items_to_embed, embeddings)`:
positionally assign vectors, leftover items unchanged. -/
def assignEmbeddings : List Item → List (List ℝ) → List Item
  | [], _ => []
  | its, [] => its
  | it :: rest, e :: es => { it with embedding := some e } :: assignEmbeddings rest es

/-- Result of one `_ensure_item_embeddings` invocation: the updated
working list, the inputs of the provider embedding calls made, and the
item lists passed to `bulk_update`, in call order. -/
structure EnsureResult where
  items : List Item
  embedCalls : List (List String)
  bulkWrites : List (List Item)

/-- The list `missing_items = [item for item in items if not item.embedding]`. -/
def missingOf (items : List Item) : List Item :=
  items.filter (fun it => !(hasEmbedding it.embedding))

/-- Model of `_ensure_item_embeddings` (ai_assistant.py 62–77): no-op without
provider config or without missing embeddings; otherwise embed the texts
of the first `maxItems` missing items in one provider call and persist
the returned vectors in one `bulk_update`. -/
def ensureItemEmbeddings (hasConfig : Bool) (maxItems : Nat)
    (embedFn : List String → List (List ℝ)) (items : List Item) : EnsureResult :=
  if !hasConfig then ⟨items, [], []⟩
  else
    let missingItems := missingOf items
    if missingItems.isEmpty then ⟨items, [], []⟩
    else
      let itemsToEmbed := missingItems.take maxItems
      let texts := itemsToEmbed.map buildItemText
      let embeddings := embedFn texts
      ⟨applyEmbeddings (embeddings.take itemsToEmbed.length) items,
       [texts],
       [assignEmbeddings itemsToEmbed embeddings]⟩

/-! ### Ranking and orchestration -/

/-- The scoring loop of `find_lost_items_with_ai` (lines 148–153): skip
items whose embedding is falsy, score the rest against the query vector. -/
noncomputable def scoredCandidates (queryEmb : List ℝ) : List Item → List (ℝ × Item)
  | [] => []
  | it :: rest =>
    match it.embedding with
    | none => scoredCandidates queryEmb rest
    | some v =>
      if v.isEmpty then scoredCandidates queryEmb rest
      else (cosineSimilarity queryEmb v, it) :: scoredCandidates queryEmb rest

open Classical in
/-- The comparison of `sort(key=lambda entry: entry[0], reverse=True)`:
`x` may come before `y` when `y`'s score is at most `x`'s. -/
noncomputable def descLe (x y : ℝ × Item) : Bool :=
  decide (y.1 ≤ x.1)

/-- Python `scored_candidates.sort(key=lambda entry: entry[0], reverse=True)`:
a stable sort descending by score. -/
noncomputable def sortByScoreDesc (scored : List (ℝ × Item)) : List (ℝ × Item) :=
  scored.mergeSort descLe

/-- Python `round(score, 4)`, modelled as exact rounding to four decimal
places (the binary-float tie behaviour is not modelled; no claim depends
on the rounded value). -/
noncomputable def pyRound4 (x : ℝ) : ℝ :=
  (round (x * 10000) : ℤ) / 10000

/-- One entry of `candidate_payload` (ai_assistant.py 158–168). -/
noncomputable def candidateOfScored (p : ℝ × Item) : Candidate :=
  ⟨p.2.id, p.2.title, p.2.description, p.2.location, p.2.tags, pyRound4 p.1⟩

/-- The ranked candidate payload built by the orchestrator: stable
descending sort, truncated to the top 10, projected to payload entries. -/
noncomputable def rankedCandidates (queryEmb : List ℝ) (items : List Item) :
    List Candidate :=
  ((sortByScoreDesc (scoredCandidates queryEmb items)).take 10).map candidateOfScored

/-- Failures escaping `find_lost_items_with_ai`: the `RuntimeError` it
raises itself when unconfigured, or an exception propagated from the
pipeline. -/
inductive AssistantErr where
  | runtimeError (msg : String)
  | pyError (e : PyErr)
  deriving Repr, DecidableEq

/-- The dictionary `find_lost_items_with_ai` returns (lines 176–180). -/
structure AssistantOk where
  message : String
  picked_item_ids : List Int
  candidate_item_ids : List Int
  deriving Repr, DecidableEq

/-- Externally observable calls made by one orchestrator run, in order. -/
inductive OrchEvent where
  | readCatalog
  | embedCall (texts : List String)
  | bulkWrite (items : List Item)
  | chatCall

def notConfiguredMessage : String := "OPENAI_API_KEY is not configured."

def noItemsMessage : String := "There are no items in the system yet."

def fallbackMessage : String :=
  "I found some possible matches. Check the suggested items below."

/-- Outcome and call trace of one `find_lost_items_with_ai` run. -/
structure OrchResult where
  outcome : Except AssistantErr AssistantOk
  trace : List OrchEvent

/-- Model of `find_lost_items_with_ai` (ai_assistant.py 133–180).  External inputs
are explicit: `hasConfig` for `_has_openai_config()`, `catalog` for the
item snapshot read from storage, `embedFn` for the provider embedding
call, `content` for the chat completion content.  The query embedding is
`_embed_texts([query])[0]` (an empty provider reply raises `IndexError`). -/
noncomputable def findLostItemsWithAI (hasConfig : Bool) (maxEmbed : Nat)
    (query : String) (catalog : List Item)
    (embedFn : List String → List (List ℝ)) (content : LLMContent) : OrchResult :=
  if !hasConfig then ⟨.error (.runtimeError notConfiguredMessage), []⟩
  else if catalog.isEmpty then ⟨.ok ⟨noItemsMessage, [], []⟩, [.readCatalog]⟩
  else
    let ensured := ensureItemEmbeddings hasConfig maxEmbed embedFn catalog
    let preTrace := [OrchEvent.readCatalog]
      ++ ensured.embedCalls.map .embedCall
      ++ ensured.bulkWrites.map .bulkWrite
      ++ [.embedCall [query]]
    match (embedFn [query]).head? with
    | none => ⟨.error (.pyError .indexError), preTrace⟩
    | some queryEmb =>
      let payload := rankedCandidates queryEmb ensured.items
      let trace := preTrace ++ if payload.isEmpty then [] else [OrchEvent.chatCall]
      match pickItemsWithLLM payload content with
      | .error e => ⟨.error (.pyError e), trace⟩
      | .ok pick =>
        let message :=
          if pick.friendly_response.isEmpty then fallbackMessage
          else pick.friendly_response
        ⟨.ok ⟨message, pick.picked_item_ids, payload.map (·.id)⟩, trace⟩

/-! ### API views and streaming (core/views.py) -/

/-- Caller-facing outcome of the assistant views: HTTP 200 with the
result body, or HTTP 503 with a `detail` string. -/
inductive ApiResponse where
  | ok (body : AssistantOk)
  | unavailable (detail : String)
  deriving Repr, DecidableEq

def genericUnavailableDetail : String :=
  "The assistant is currently unavailable. Please try again."

/-- Model of `LostItemAssistantAPIView.post` (views.py 230–248): a `RuntimeError`
becomes 503 with its own message, any other exception becomes 503 with
the generic detail, success becomes 200 with the result body. -/
def lostItemAssistantView (outcome : Except AssistantErr AssistantOk) : ApiResponse :=
  match outcome with
  | .ok r => .ok r
  | .error (.runtimeError msg) => .unavailable msg
  | .error (.pyError _) => .unavailable genericUnavailableDetail

/-- One server-sent event of the streaming view. -/
inductive SSEEvent where
  | assistantMessage (chunk : String)
  | selectedItemIds (itemIds : List Int)
  | candidateItemIds (itemIds : List Int)
  | done
  deriving Repr, DecidableEq

/-- Python `message[i : i + c]` for `i in range(0, len(message), c)`: split into
consecutive slices of `c` characters (empty for a zero chunk size, which
`range` would reject; the source uses the constant 80). -/
def chunksOf (c : Nat) (s : List Char) : List (List Char) :=
  if h : c = 0 ∨ s = [] then []
  else
    have : s.length - c < s.length := by
      rcases not_or.mp h with ⟨hc, hs⟩
      have hlen : 0 < s.length := List.length_pos.mpr hs
      omega
    s.take c :: chunksOf c (s.drop c)
  termination_by s.length
  decreasing_by simpa using this

/-- The `stream()` generator of `LostItemAssistantStreamAPIView.post`
(views.py 271–278): the message in chunks of 80 characters, then the
picked ids, the candidate ids, and the completion sentinel. -/
def streamEvents (r : AssistantOk) : List SSEEvent :=
  (chunksOf 80 r.message.data).map (fun ch => .assistantMessage (String.mk ch))
    ++ [.selectedItemIds r.picked_item_ids, .candidateItemIds r.candidate_item_ids, .done]

/-! ### Item serializer (core/serializers.py) -/

/-- Python `sorted(set(tag.strip().lower() for tag in tags if tag.strip()))`
in `_upsert_tags`: strip and lowercase, drop blanks, deduplicate, sort. -/
def normalizeTags (tags : List String) : List String :=
  List.insertionSort (fun a b : String => ¬ b < a)
    (dedupKeepFirstStr
      ((tags.filter (fun t => !((pyStripChars t.data).isEmpty))).map
        (fun t => (pyStrip t).toLower)))

/-- Model of `ItemSerializer._upsert_tags` (serializers.py 259–264): `None` leaves
the tags untouched, a list replaces them with the normalized set. -/
def upsertTags (item : Item) (tags : Option (List String)) : Item :=
  match tags with
  | none => item
  | some ts => { item with tags := normalizeTags ts }

/-- Model of `sync_item_embedding` (ai_assistant.py 42–47): no-op without provider
config; otherwise `embedOutcome` stands for
`_embed_texts([_build_item_text(item)])[0]` — on success the vector is
saved onto the item, on failure the exception propagates. -/
def syncItemEmbedding (hasConfig : Bool) (embedOutcome : Except PyErr (List ℝ))
    (item : Item) : Except PyErr Item :=
  if !hasConfig then .ok item
  else
    match embedOutcome with
    | .error e => .error e
    | .ok v => .ok { item with embedding := some v }

/-- The writable non-tag fields of `ItemSerializer` that this model keeps
(title, description, location; image, item type and coordinates do not
interact with the assistant pipeline). -/
structure ItemPatch where
  title : Option String
  description : Option String
  location : Option String

/-- The `setattr` loop of `ItemSerializer.update` over `validated_data`
(tags already popped; `embedding` is not a serializer field). -/
def applyPatch (item : Item) (p : ItemPatch) : Item :=
  { item with
    title := p.title.getD item.title
    description := p.description.getD item.description
    location := p.location.getD item.location }

/-- Model of `ItemSerializer.create` (serializers.py 266–274): create the item
(embedding starts null), upsert the tags (`pop("tags", [])`), then try to
sync the embedding, swallowing any exception. -/
def itemSerializerCreate (hasConfig : Bool) (embedOutcome : Except PyErr (List ℝ))
    (id : Int) (title description location : String) (tags : List String) : Item :=
  let item : Item := ⟨id, title, description, location, [], none⟩
  let item := upsertTags item (some tags)
  match syncItemEmbedding hasConfig embedOutcome item with
  | .ok it => it
  | .error _ => item

/-- Model of `ItemSerializer.update` (serializers.py 276–286): apply the field
updates, save, upsert the tags (`pop("tags", None)`), then try to sync
the embedding, swallowing any exception. -/
def itemSerializerUpdate (hasConfig : Bool) (embedOutcome : Except PyErr (List ℝ))
    (instanceItem : Item) (patch : ItemPatch) (tags : Option (List String)) : Item :=
  let item := applyPatch instanceItem patch
  let item := upsertTags item tags
  match syncItemEmbedding hasConfig embedOutcome item with
  | .ok it => it
  | .error _ => item

/-! ### Provider client construction (`_get_openai_client`) -/

/-- Keyword arguments of one `OpenAI(...)` constructor call.
`httpClientTrustEnv = none` means no `http_client` kwarg was passed (the
default transport, which inherits proxy/environment settings);
`some false` would be an explicit `httpx.Client(trust_env=False)`. -/
structure OpenAIClientArgs where
  apiKey : String
  baseUrl : String
  httpClientTrustEnv : Option Bool
  deriving Repr, DecidableEq

/-- A constructed client, remembering the arguments that built it. -/
structure OpenAIClient where
  args : OpenAIClientArgs
  deriving Repr, DecidableEq

/-- Model of `_get_openai_client` (ai_assistant.py 24–30): a single
`OpenAI(api_key=..., base_url=...)` call with the default transport;
whatever the constructor does (`construct`, with a `ValueError` message
as the error) is returned as is, and the list of constructor attempts is
the trace.  There is no fallback attempt. -/
def getOpenaiClient (apiKey baseUrl : String)
    (construct : OpenAIClientArgs → Except String OpenAIClient) :
    Except String OpenAIClient × List OpenAIClientArgs :=
  let args : OpenAIClientArgs := ⟨apiKey, baseUrl, none⟩
  (construct args, [args])

/-! ## Lemmas about the sanitization loop -/

theorem pickLoop_eq (cand : List Int) :
    ∀ (xs : List JValue) (acc : List Int),
      pickLoop cand xs acc
        = acc ++ (dedupKeepFirst ((xs.filterMap pyInt).filter
            (fun n => decide (n ∈ cand)))).filter (fun n => decide (n ∉ acc))
  | [], acc => by simp [pickLoop, dedupKeepFirst]
  | v :: vs, acc => by
    rw [pickLoop]
    cases hv : pyInt v with
    | none => simp [hv, List.filterMap_cons, pickLoop_eq cand vs acc]
    | some n =>
      simp only [hv, List.filterMap_cons]
      by_cases hc : n ∈ cand
      · rw [List.filter_cons_of_pos (by simpa using hc)]
        by_cases ha : n ∈ acc
        · rw [if_neg (by simp [ha]), pickLoop_eq cand vs acc, dedupKeepFirst,
            List.filter_cons_of_neg (by simpa using ha), List.filter_filter]
          congr 1
          refine List.filter_congr ?_
          intro m _
          by_cases hm : m ∈ acc
          · simp [hm]
          · have hmn : m ≠ n := fun h => hm (h ▸ ha)
            simp [hm, hmn]
        · rw [if_pos ⟨hc, ha⟩, pickLoop_eq cand vs (acc ++ [n]), dedupKeepFirst,
            List.filter_cons_of_pos (by simpa using ha), List.append_assoc,
            List.singleton_append, List.filter_filter]
          congr 2
          refine List.filter_congr ?_
          intro m _
          by_cases hm : m ∈ acc <;> by_cases hmn : m = n <;>
            simp [hm, hmn]
      · rw [List.filter_cons_of_neg (by simpa using hc), if_neg (by simp [hc]),
          pickLoop_eq cand vs acc]

theorem dedupKeepFirst_subset : ∀ (l : List Int) (m : Int),
    m ∈ dedupKeepFirst l → m ∈ l
  | [], m, h => by simp [dedupKeepFirst] at h
  | n :: ns, m, h => by
    rw [dedupKeepFirst] at h
    rcases List.mem_cons.mp h with h | h
    · exact h ▸ List.mem_cons_self n ns
    · exact List.mem_cons_of_mem n (dedupKeepFirst_subset ns m (List.mem_of_mem_filter h))

theorem dedupKeepFirst_nodup : ∀ l : List Int, (dedupKeepFirst l).Nodup
  | [] => by simp [dedupKeepFirst]
  | n :: ns => by
    rw [dedupKeepFirst]
    refine List.nodup_cons.mpr ⟨?_, (dedupKeepFirst_nodup ns).filter _⟩
    intro hmem
    have := List.of_mem_filter hmem
    simp at this

/-- The sanitized pick list, starting from an empty accumulator. -/
theorem pickLoop_nil_eq (cand : List Int) (xs : List JValue) :
    pickLoop cand xs []
      = dedupKeepFirst ((xs.filterMap pyInt).filter (fun n => decide (n ∈ cand))) := by
  rw [pickLoop_eq]
  simp

theorem pickLoop_nil_mem {cand : List Int} {xs : List JValue} {m : Int}
    (h : m ∈ pickLoop cand xs []) : m ∈ cand := by
  rw [pickLoop_nil_eq] at h
  have := List.of_mem_filter (dedupKeepFirst_subset _ _ h)
  simpa using this

theorem pickLoop_nil_nodup (cand : List Int) (xs : List JValue) :
    (pickLoop cand xs []).Nodup := by
  rw [pickLoop_nil_eq]
  exact dedupKeepFirst_nodup _

/-- C1. For every parsed reasoning-model output list and every candidate
id set, the sanitized pick list is obtained by coercing each entry with
Python `int` (coercion failures dropped), keeping only candidate ids,
dropping duplicates while keeping first occurrences, and capping at 5 —
all preserving the model's order; and on candidates `{1, 2}` with raw
output `[2, "2", 999, "x", 1]` the selector returns exactly `[2, 1]`. -/
theorem c1_sanitized_pick_list :
    (∀ (cand : List Int) (xs : List JValue),
        (pickLoop cand xs []).take 5
          = (dedupKeepFirst ((xs.filterMap pyInt).filter
              (fun n => decide (n ∈ cand)))).take 5)
    ∧ pickItemsWithLLM
        [⟨1, "Wallet", "", "", [], 0⟩, ⟨2, "Card holder", "", "", [], 0⟩]
        (.valid (.obj [("friendly_response", .str "Here you go"),
          ("picked_item_ids",
            .arr [.int 2, .str "2", .int 999, .str "x", .int 1])]))
        = .ok ⟨"Here you go", [2, 1]⟩ := by
  constructor
  · intro cand xs
    rw [pickLoop_nil_eq]
  · rfl

/-! ## The selector's output invariants -/

theorem pickFromParsed_ok {ids : List Int} {parsed : JValue} {pick : PickResult}
    (h : pickFromParsed ids parsed = .ok pick) :
    ∃ vals, pick.picked_item_ids = (pickLoop ids vals []).take 5 := by
  rw [pickFromParsed.eq_def] at h
  split at h <;> try exact Except.noConfusion h
  split at h <;> try exact Except.noConfusion h
  split at h <;> try exact Except.noConfusion h
  cases h
  exact ⟨_, rfl⟩

theorem pickItemsWithLLM_ok {cands : List Candidate} {content : LLMContent}
    {pick : PickResult} (h : pickItemsWithLLM cands content = .ok pick) :
    (∀ m ∈ pick.picked_item_ids, m ∈ cands.map (·.id))
      ∧ pick.picked_item_ids.Nodup ∧ pick.picked_item_ids.length ≤ 5 := by
  rw [pickItemsWithLLM] at h
  split at h
  · cases h
    exact ⟨by simp, by simp, by simp⟩
  · split at h
    · cases h
    · obtain ⟨vals, hvals⟩ := pickFromParsed_ok h
      rw [hvals]
      refine ⟨?_, ?_, ?_⟩
      · intro m hm
        exact pickLoop_nil_mem (List.take_subset 5 _ hm)
      · exact (pickLoop_nil_nodup _ _).sublist (List.take_sublist 5 _)
      · exact List.length_take_le 5 _

/-- Invariants of a successful assistant result (trivial on failures). -/
def okInvariant : Except AssistantErr AssistantOk → Prop
  | .error _ => True
  | .ok r =>
    (∀ m ∈ r.picked_item_ids, m ∈ r.candidate_item_ids)
      ∧ r.picked_item_ids.Nodup ∧ r.picked_item_ids.length ≤ 5

/-- C2. Every successful `find_lost_items_with_ai` result — for any
configuration, catalog, provider behaviour and reasoning-model output —
picks only identifiers from its own candidate list, without duplicates,
and at most 5 of them. -/
theorem c2_picked_ids_invariant (hasConfig : Bool) (maxEmbed : Nat)
    (query : String) (catalog : List Item)
    (embedFn : List String → List (List ℝ)) (content : LLMContent) :
    okInvariant (findLostItemsWithAI hasConfig maxEmbed query catalog
      embedFn content).outcome := by
  rw [findLostItemsWithAI]
  split
  · trivial
  · split
    · exact ⟨by simp, by simp, by simp⟩
    · dsimp only
      split
      · trivial
      · split
        · trivial
        · rename_i pick hpick
          exact pickItemsWithLLM_ok hpick

/-! ## Cosine similarity -/

/-- C3. Cosine similarity is exactly −1.0 when either vector is empty,
the lengths differ, or either magnitude is zero; otherwise it is the dot
product divided by the product of the magnitudes. -/
theorem c3_cosine_similarity (a b : List ℝ) :
    ((a = [] ∨ b = [] ∨ a.length ≠ b.length ∨ vecNorm a = 0 ∨ vecNorm b = 0) →
        cosineSimilarity a b = -1)
    ∧ (a ≠ [] → b ≠ [] → a.length = b.length → vecNorm a ≠ 0 → vecNorm b ≠ 0 →
        cosineSimilarity a b = dotProd a b / (vecNorm a * vecNorm b)) := by
  constructor
  · intro h
    rw [cosineSimilarity]
    rcases h with h | h | h | h | h
    · rw [if_pos (by simp [h])]
    · rw [if_pos (by simp [h])]
    · rw [if_pos (by simp [h])]
    · by_cases hg : a.isEmpty || b.isEmpty || a.length != b.length
      · rw [if_pos hg]
      · rw [if_neg hg, if_pos (Or.inl h)]
    · by_cases hg : a.isEmpty || b.isEmpty || a.length != b.length
      · rw [if_pos hg]
      · rw [if_neg hg, if_pos (Or.inr h)]
  · intro ha hb hlen hna hnb
    rw [cosineSimilarity,
      if_neg (by simp [ha, hb, hlen]),
      if_neg (by simp [hna, hnb])]

/-- Witness for C3 at concrete inputs: one degenerate pair and one
well-formed pair. -/
theorem c3_cosine_similarity_witness :
    cosineSimilarity [] [1] = -1
    ∧ cosineSimilarity [1] [1] = dotProd [1] [1] / (vecNorm [1] * vecNorm [1]) := by
  have h1 : vecNorm [(1 : ℝ)] = 1 := by
    rw [vecNorm, sumSquares]
    norm_num
  exact ⟨(c3_cosine_similarity [] [1]).1 (Or.inl rfl),
    (c3_cosine_similarity [1] [1]).2 (by simp) (by simp) rfl
      (by rw [h1]; exact one_ne_zero) (by rw [h1]; exact one_ne_zero)⟩

/-! ## The similarity ranker -/

theorem descLe_iff {x y : ℝ × Item} : descLe x y = true ↔ y.1 ≤ x.1 := by
  simp [descLe]

theorem descLe_trans : ∀ (a b c : ℝ × Item),
    descLe a b → descLe b c → descLe a c := by
  intro a b c hab hbc
  exact descLe_iff.mpr ((descLe_iff.mp hbc).trans (descLe_iff.mp hab))

theorem descLe_total : ∀ (a b : ℝ × Item), descLe a b || descLe b a := by
  intro a b
  rcases le_total b.1 a.1 with h | h
  · exact Bool.or_eq_true _ _ |>.mpr (Or.inl (descLe_iff.mpr h))
  · exact Bool.or_eq_true _ _ |>.mpr (Or.inr (descLe_iff.mpr h))

theorem scoredCandidates_eq (q : List ℝ) : ∀ items : List Item,
    scoredCandidates q items
      = (items.filter (fun it => hasEmbedding it.embedding)).map
          (fun it => (cosineSimilarity q (it.embedding.getD []), it))
  | [] => by simp [scoredCandidates]
  | it :: rest => by
    cases hemb : it.embedding with
    | none =>
      simp only [scoredCandidates, hemb]
      rw [List.filter_cons_of_neg (by simp [hasEmbedding, hemb])]
      exact scoredCandidates_eq q rest
    | some v =>
      cases hv : v.isEmpty with
      | true =>
        simp only [scoredCandidates, hemb, hv, if_true]
        rw [List.filter_cons_of_neg (by simp [hasEmbedding, hemb, hv])]
        exact scoredCandidates_eq q rest
      | false =>
        simp only [scoredCandidates, hemb, hv, if_false, Bool.false_eq_true]
        rw [List.filter_cons_of_pos (by simp [hasEmbedding, hemb, hv])]
        simp only [List.map_cons, hemb, Option.getD_some]
        rw [scoredCandidates_eq q rest]

/-- How many items of a list the ranker can score. -/
def embeddableCount (items : List Item) : Nat :=
  (items.filter (fun it => hasEmbedding it.embedding)).length

theorem scoredCandidates_length (q : List ℝ) (items : List Item) :
    (scoredCandidates q items).length = embeddableCount items := by
  rw [scoredCandidates_eq, embeddableCount, List.length_map]

theorem rankedCandidates_length (q : List ℝ) (items : List Item) :
    (rankedCandidates q items).length = min 10 (embeddableCount items) := by
  rw [rankedCandidates, List.length_map, List.length_take, sortByScoreDesc,
    List.length_mergeSort, scoredCandidates_length]

/-- Candidate-list length of a successful orchestrator result: the
minimum of 10 and the number of embeddable items after cache sync
(trivial on failures). -/
def candListLenOk (hasConfig : Bool) (maxEmbed : Nat)
    (embedFn : List String → List (List ℝ)) (catalog : List Item) :
    Except AssistantErr AssistantOk → Prop
  | .error _ => True
  | .ok r => r.candidate_item_ids.length
      = min 10 (embeddableCount
          (ensureItemEmbeddings hasConfig maxEmbed embedFn catalog).items)

/-- C4. The ranker scores exactly the items that have an embedding (the
rest are skipped, not scored zero), sorts descending by similarity with
ties keeping the original relative order (any in-order pair with the
second score at most the first survives as a pair in the sorted list),
and truncates to 10; the orchestrator's candidate list length is
`min 10 (number of embeddable items)` — exactly 10 when more than 10
items are embeddable. -/
theorem c4_ranker (q : List ℝ) (items : List Item) :
    scoredCandidates q items
      = (items.filter (fun it => hasEmbedding it.embedding)).map
          (fun it => (cosineSimilarity q (it.embedding.getD []), it))
    ∧ (sortByScoreDesc (scoredCandidates q items)).Pairwise
        (fun x y => y.1 ≤ x.1)
    ∧ (∀ x y : ℝ × Item, List.Sublist [x, y] (scoredCandidates q items) → y.1 ≤ x.1 →
        List.Sublist [x, y] (sortByScoreDesc (scoredCandidates q items)))
    ∧ (rankedCandidates q items).length
        = min 10 ((items.filter (fun it => hasEmbedding it.embedding)).length)
    ∧ (∀ (hasConfig : Bool) (maxEmbed : Nat) (query : String)
        (catalog : List Item) (embedFn : List String → List (List ℝ))
        (content : LLMContent),
        candListLenOk hasConfig maxEmbed embedFn catalog
          (findLostItemsWithAI hasConfig maxEmbed query catalog
            embedFn content).outcome) := by
  refine ⟨scoredCandidates_eq q items, ?_, ?_, rankedCandidates_length q items, ?_⟩
  · exact (List.sorted_mergeSort descLe_trans descLe_total
      (scoredCandidates q items)).imp (fun h => descLe_iff.mp h)
  · intro x y hsub hle
    exact List.pair_sublist_mergeSort descLe_trans descLe_total
      (descLe_iff.mpr hle) hsub
  · intro hasConfig maxEmbed query catalog embedFn content
    rw [findLostItemsWithAI]
    split
    · trivial
    · split
      · rename_i hcfg hcat
        have hc : catalog = [] := by simpa using hcat
        subst hc
        cases hasConfig <;>
          simp [candListLenOk, ensureItemEmbeddings, missingOf, embeddableCount]
      · dsimp only
        split
        · trivial
        · split
          · trivial
          · rw [candListLenOk]
            simp [rankedCandidates_length]

/-- Witness for C4: a concrete two-item tie, where stability keeps the
original pair order in the sorted list. -/
theorem c4_ranker_witness :
    List.Sublist
      [(cosineSimilarity [1] [1], ⟨1, "a", "", "", [], some [1]⟩),
        (cosineSimilarity [1] [1], ⟨2, "b", "", "", [], some [1]⟩)]
      (sortByScoreDesc (scoredCandidates [1]
        [⟨1, "a", "", "", [], some [1]⟩, ⟨2, "b", "", "", [], some [1]⟩])) :=
  (c4_ranker [1] [⟨1, "a", "", "", [], some [1]⟩, ⟨2, "b", "", "", [], some [1]⟩]).2.2.1
    (cosineSimilarity [1] [1], ⟨1, "a", "", "", [], some [1]⟩)
    (cosineSimilarity [1] [1], ⟨2, "b", "", "", [], some [1]⟩)
    (List.Sublist.refl _) (le_refl _)

/-! ## Embedding-cache synchronization -/

theorem missingOf_applyEmbeddings : ∀ (es : List (List ℝ)) (items : List Item),
    (∀ v ∈ es, v ≠ []) → es.length ≤ (missingOf items).length →
    missingOf (applyEmbeddings es items) = (missingOf items).drop es.length
  | es, [], _, hlen => by
    simp [missingOf] at hlen
    simp [applyEmbeddings, missingOf, hlen]
  | [], it :: rest, _, _ => by
    simp [applyEmbeddings]
  | e :: es, it :: rest, hv, hlen => by
    cases h : hasEmbedding it.embedding with
    | true =>
      have hskip : missingOf (it :: rest) = missingOf rest := by
        simp [missingOf, List.filter_cons, h]
      rw [applyEmbeddings, if_pos h]
      have hskip2 : missingOf (it :: applyEmbeddings (e :: es) rest)
          = missingOf (applyEmbeddings (e :: es) rest) := by
        simp [missingOf, List.filter_cons, h]
      have hlen' : (e :: es).length ≤ (missingOf rest).length := by
        rw [hskip] at hlen; exact hlen
      rw [hskip2, hskip]
      exact missingOf_applyEmbeddings (e :: es) rest hv hlen'
    | false =>
      rw [applyEmbeddings, if_neg (by simp [h])]
      have hkeep : missingOf (it :: rest) = it :: missingOf rest := by
        simp [missingOf, List.filter_cons, h]
      have he : hasEmbedding (some e) = true := by
        have : e ≠ [] := hv e (List.mem_cons_self e es)
        simp [hasEmbedding, List.isEmpty_iff, this]
      have hlen' : es.length ≤ (missingOf rest).length := by
        rw [hkeep] at hlen
        simpa using hlen
      have ih := missingOf_applyEmbeddings es rest
        (fun v hv' => hv v (List.mem_cons_of_mem e hv')) hlen'
      have hskipNew : missingOf ({ it with embedding := some e }
          :: applyEmbeddings es rest) = missingOf (applyEmbeddings es rest) := by
        simp [missingOf, List.filter_cons, he]
      rw [hskipNew, hkeep, List.length_cons, List.drop_succ_cons]
      exact ih

theorem assignEmbeddings_embedding : ∀ (its : List Item) (es : List (List ℝ)),
    es.length = its.length →
    (assignEmbeddings its es).map (·.embedding) = es.map some
  | [], es, h => by
    have : es = [] := List.length_eq_zero.mp (by simpa using h)
    simp [this, assignEmbeddings]
  | it :: rest, [], h => by simp at h
  | it :: rest, e :: es, h => by
    rw [assignEmbeddings]
    simp only [List.map_cons]
    rw [assignEmbeddings_embedding rest es (by simpa using h)]

theorem assignEmbeddings_id : ∀ (its : List Item) (es : List (List ℝ)),
    (assignEmbeddings its es).map (·.id) = its.map (·.id)
  | [], es => by
    cases es <;> simp [assignEmbeddings]
  | it :: rest, [] => by simp [assignEmbeddings]
  | it :: rest, e :: es => by
    rw [assignEmbeddings]
    simp only [List.map_cons]
    rw [assignEmbeddings_id rest es]

/-- C5. One cache-sync invocation: no provider call when unconfigured or
when nothing is missing; otherwise exactly one embedding call covering
the texts of the first `maxItems` missing items (all of them when the cap
is not exceeded) and exactly one bulk write persisting exactly the
returned vectors on exactly those items; the remaining missing items are
still missing afterwards, unchanged. -/
theorem c5_embedding_sync (maxItems : Nat)
    (embedFn : List String → List (List ℝ)) (items : List Item) :
    ensureItemEmbeddings false maxItems embedFn items = ⟨items, [], []⟩
    ∧ (missingOf items = [] →
        ensureItemEmbeddings true maxItems embedFn items = ⟨items, [], []⟩)
    ∧ ((missingOf items).length ≤ maxItems →
        (missingOf items).take maxItems = missingOf items)
    ∧ (missingOf items ≠ [] →
        (ensureItemEmbeddings true maxItems embedFn items).embedCalls
          = [((missingOf items).take maxItems).map buildItemText]
        ∧ (ensureItemEmbeddings true maxItems embedFn items).bulkWrites
          = [assignEmbeddings ((missingOf items).take maxItems)
              (embedFn (((missingOf items).take maxItems).map buildItemText))])
    ∧ (∀ w, missingOf items ≠ [] →
        (embedFn (((missingOf items).take maxItems).map buildItemText)).length
          = ((missingOf items).take maxItems).length →
        (ensureItemEmbeddings true maxItems embedFn items).bulkWrites = [w] →
        w.map (·.embedding)
          = (embedFn (((missingOf items).take maxItems).map buildItemText)).map some
        ∧ w.map (·.id) = ((missingOf items).take maxItems).map (·.id))
    ∧ (missingOf items ≠ [] →
        (∀ v ∈ embedFn (((missingOf items).take maxItems).map buildItemText),
          v ≠ []) →
        (embedFn (((missingOf items).take maxItems).map buildItemText)).length
          = ((missingOf items).take maxItems).length →
        missingOf (ensureItemEmbeddings true maxItems embedFn items).items
          = (missingOf items).drop (min maxItems (missingOf items).length)) := by
  refine ⟨by simp [ensureItemEmbeddings], ?_, ?_, ?_, ?_, ?_⟩
  · intro h
    simp [ensureItemEmbeddings, h]
  · intro h
    exact List.take_of_length_le h
  · intro h
    rw [ensureItemEmbeddings]
    simp [List.isEmpty_iff, h]
  · intro w h hlen hw
    rw [ensureItemEmbeddings, if_neg (by simp),
      if_neg (by simpa [List.isEmpty_iff] using h)] at hw
    dsimp only at hw
    injection hw with hw1 _
    rw [← hw1]
    exact ⟨assignEmbeddings_embedding _ _ hlen, assignEmbeddings_id _ _⟩
  · intro h hv hlen
    have htake : (embedFn (((missingOf items).take maxItems).map buildItemText)).take
        ((missingOf items).take maxItems).length
        = embedFn (((missingOf items).take maxItems).map buildItemText) := by
      rw [← hlen]
      exact List.take_length _
    rw [ensureItemEmbeddings, if_neg (by simp),
      if_neg (by simpa [List.isEmpty_iff] using h)]
    dsimp only
    rw [htake]
    rw [missingOf_applyEmbeddings _ _ hv
      (by rw [hlen, List.length_take]; exact min_le_right _ _)]
    rw [hlen, List.length_take]

/-- Witness for C5: three missing items, cap 2, a provider returning two
nonempty vectors — after sync exactly one item is still missing. -/
theorem c5_embedding_sync_witness :
    missingOf ((ensureItemEmbeddings true 2 (fun _ => [[(1 : ℝ)], [(2 : ℝ)]])
        [⟨1, "", "", "", [], none⟩, ⟨2, "", "", "", [], none⟩,
          ⟨3, "", "", "", [], none⟩]).items)
      = (missingOf [⟨1, "", "", "", [], none⟩, ⟨2, "", "", "", [], none⟩,
          ⟨3, "", "", "", [], none⟩]).drop
        (min 2 (missingOf [(⟨1, "", "", "", [], none⟩ : Item),
          ⟨2, "", "", "", [], none⟩, ⟨3, "", "", "", [], none⟩]).length) :=
  (c5_embedding_sync 2 (fun _ => [[(1 : ℝ)], [(2 : ℝ)]])
      [⟨1, "", "", "", [], none⟩, ⟨2, "", "", "", [], none⟩,
        ⟨3, "", "", "", [], none⟩]).2.2.2.2.2
    (List.cons_ne_nil _ _)
    (by
      intro v hv
      simp only [List.mem_cons, List.not_mem_nil, or_false] at hv
      rcases hv with rfl | rfl <;> simp)
    rfl

/-! ## Streaming emitter -/

/-- Is this event a message chunk? -/
def isMessageChunk : SSEEvent → Bool
  | .assistantMessage _ => true
  | _ => false

/-- The chunk payload of a message-chunk event. -/
def chunkPayload : SSEEvent → Option String
  | .assistantMessage ch => some ch
  | _ => none

theorem chunksOf_length_aux (c : Nat) (hc : 0 < c) :
    ∀ (n : Nat) (s : List Char), s.length ≤ n →
      (chunksOf c s).length = (s.length + c - 1) / c := by
  intro n
  induction n with
  | zero =>
    intro s hs
    have : s = [] := List.eq_nil_of_length_eq_zero (Nat.le_zero.mp hs)
    subst this
    rw [chunksOf, dif_pos (Or.inr rfl)]
    simp [Nat.div_eq_of_lt (by omega : c - 1 < c)]
  | succ n ih =>
    intro s hs
    rcases List.eq_nil_or_concat s with rfl | _
    · rw [chunksOf, dif_pos (Or.inr rfl)]
      simp [Nat.div_eq_of_lt (by omega : c - 1 < c)]
    · have hs0 : s ≠ [] := by
        rename_i h
        obtain ⟨l, a, rfl⟩ := h
        simp
      have hL : 0 < s.length := List.length_pos.mpr hs0
      rw [chunksOf, dif_neg (by push_neg; exact ⟨by omega, hs0⟩)]
      rw [List.length_cons, ih (s.drop c) (by simp; omega)]
      rw [List.length_drop]
      rcases le_or_lt s.length c with hle | hlt
      · have h1 : s.length - c = 0 := by omega
        rw [h1]
        rw [Nat.div_eq_of_lt (by omega : 0 + c - 1 < c)]
        rw [Nat.div_eq_of_lt_le (by omega : 1 * c ≤ s.length + c - 1)
          (by omega : s.length + c - 1 < (1 + 1) * c)]
      · have h1 : s.length - c + c - 1 = (s.length - c - 1) + c := by omega
        have h2 : s.length + c - 1 = (s.length - 1) + c := by omega
        rw [h1, h2, Nat.add_div_right _ hc, Nat.add_div_right _ hc]
        have h3 : s.length - c - 1 + c = s.length - 1 := by omega
        rw [← h3, Nat.add_div_right _ hc]

theorem chunksOf_flatten_aux (c : Nat) (hc : 0 < c) :
    ∀ (n : Nat) (s : List Char), s.length ≤ n → (chunksOf c s).flatten = s := by
  intro n
  induction n with
  | zero =>
    intro s hs
    have : s = [] := List.eq_nil_of_length_eq_zero (Nat.le_zero.mp hs)
    subst this
    rw [chunksOf, dif_pos (Or.inr rfl)]
    rfl
  | succ n ih =>
    intro s hs
    by_cases hs0 : s = []
    · subst hs0
      rw [chunksOf, dif_pos (Or.inr rfl)]
      rfl
    · have hL : 0 < s.length := List.length_pos.mpr hs0
      rw [chunksOf, dif_neg (by push_neg; exact ⟨by omega, hs0⟩)]
      rw [List.flatten_cons, ih (s.drop c) (by simp; omega)]
      exact List.take_append_drop c s

theorem string_join_mk : ∀ (ls : List (List Char)) (acc : List Char),
    (ls.map String.mk).foldl (· ++ ·) (String.mk acc) = String.mk (acc ++ ls.flatten)
  | [], acc => by simp
  | l :: ls, acc => by
    rw [List.map_cons, List.foldl_cons]
    have : String.mk acc ++ String.mk l = String.mk (acc ++ l) := rfl
    rw [this, string_join_mk ls (acc ++ l)]
    simp

theorem filterMap_chunkPayload (chs : List (List Char)) :
    (chs.map (fun ch => SSEEvent.assistantMessage (String.mk ch))).filterMap
        chunkPayload = chs.map String.mk := by
  induction chs with
  | nil => rfl
  | cons l ls ih => simp [chunkPayload, ih]

/-- C6. The streamed event list is the message cut into 80-character
chunks — exactly `⌈L/80⌉` of them, concatenating back to the message —
followed by exactly one picked-ids event, one candidate-ids event and one
completion event, in that order and nothing else; chunking with any
positive chunk size `c` yields `⌈L/c⌉` chunks that concatenate exactly. -/
theorem c6_stream_protocol (r : AssistantOk) :
    ((streamEvents r).filter isMessageChunk).length
        = (r.message.length + 79) / 80
    ∧ ((streamEvents r).filterMap chunkPayload).foldl (· ++ ·) "" = r.message
    ∧ (streamEvents r).filter isMessageChunk
        ++ (streamEvents r).filter (fun e => !(isMessageChunk e))
        = streamEvents r
    ∧ (streamEvents r).filter (fun e => !(isMessageChunk e))
        = [.selectedItemIds r.picked_item_ids,
            .candidateItemIds r.candidate_item_ids, .done]
    ∧ (∀ (c : Nat) (s : List Char), 0 < c →
        (chunksOf c s).length = (s.length + c - 1) / c
          ∧ (chunksOf c s).flatten = s) := by
  have hchs : ∀ e ∈ (chunksOf 80 r.message.data).map
      (fun ch => SSEEvent.assistantMessage (String.mk ch)),
      isMessageChunk e = true := by
    intro e he
    obtain ⟨ch, _, rfl⟩ := List.mem_map.mp he
    rfl
  have hfilter1 : (streamEvents r).filter isMessageChunk
      = (chunksOf 80 r.message.data).map
          (fun ch => SSEEvent.assistantMessage (String.mk ch)) := by
    rw [streamEvents, List.filter_append, List.filter_eq_self.mpr hchs]
    simp [isMessageChunk]
  have hfilter2 : (streamEvents r).filter (fun e => !(isMessageChunk e))
      = [SSEEvent.selectedItemIds r.picked_item_ids,
          SSEEvent.candidateItemIds r.candidate_item_ids, SSEEvent.done] := by
    rw [streamEvents, List.filter_append,
      List.filter_eq_nil_iff.mpr (by intro a ha; simp [hchs a ha])]
    simp [isMessageChunk]
  refine ⟨?_, ?_, ?_, hfilter2, ?_⟩
  · rw [hfilter1, List.length_map,
      chunksOf_length_aux 80 (by omega) r.message.data.length r.message.data le_rfl]
    rfl
  · rw [streamEvents, List.filterMap_append, filterMap_chunkPayload]
    have htr : ([SSEEvent.selectedItemIds r.picked_item_ids,
        SSEEvent.candidateItemIds r.candidate_item_ids,
        SSEEvent.done]).filterMap chunkPayload = [] := rfl
    rw [htr, List.append_nil]
    have h0 : ("" : String) = String.mk [] := rfl
    rw [h0, string_join_mk]
    rw [List.nil_append,
      chunksOf_flatten_aux 80 (by omega) r.message.data.length r.message.data le_rfl]
  · rw [hfilter1, hfilter2, streamEvents]
  · intro c s hc
    exact ⟨chunksOf_length_aux c hc s.length s le_rfl,
      chunksOf_flatten_aux c hc s.length s le_rfl⟩

/-- Witness for C6: chunking four characters with chunk size 3 gives two
chunks that concatenate back. -/
theorem c6_stream_protocol_witness :
    (chunksOf 3 ['a', 'b', 'c', 'd']).length
        = ((['a', 'b', 'c', 'd'] : List Char).length + 3 - 1) / 3
    ∧ (chunksOf 3 ['a', 'b', 'c', 'd']).flatten = ['a', 'b', 'c', 'd'] :=
  (c6_stream_protocol ⟨"", [], []⟩).2.2.2.2 3 ['a', 'b', 'c', 'd'] (by omega)

/-! ## Error taxonomy at the API boundary -/

/-- C7. With no provider configured the orchestrator fails at once with
the `NotConfigured` runtime error and an empty call trace — in particular
the catalog is never read — and the API view maps that failure to a
distinct detail message from the generic one used for any other pipeline
exception. -/
theorem c7_not_configured (maxEmbed : Nat) (query : String)
    (catalog : List Item) (embedFn : List String → List (List ℝ))
    (content : LLMContent) :
    (findLostItemsWithAI false maxEmbed query catalog embedFn content).outcome
        = .error (.runtimeError notConfiguredMessage)
    ∧ (findLostItemsWithAI false maxEmbed query catalog embedFn content).trace
        = []
    ∧ OrchEvent.readCatalog ∉
        (findLostItemsWithAI false maxEmbed query catalog embedFn content).trace
    ∧ lostItemAssistantView (.error (.runtimeError notConfiguredMessage))
        = .unavailable notConfiguredMessage
    ∧ (∀ e : PyErr, lostItemAssistantView (.error (.pyError e))
        = .unavailable genericUnavailableDetail)
    ∧ notConfiguredMessage ≠ genericUnavailableDetail := by
  refine ⟨rfl, rfl, ?_, rfl, fun e => rfl, ?_⟩
  · rw [show (findLostItemsWithAI false maxEmbed query catalog embedFn
      content).trace = [] from rfl]
    exact List.not_mem_nil _
  · decide

/-- Witness for C7: the two outcome mappings at concrete errors. -/
theorem c7_not_configured_witness :
    lostItemAssistantView (.error (.runtimeError notConfiguredMessage))
        = .unavailable notConfiguredMessage
    ∧ lostItemAssistantView (.error (.pyError .typeError))
        = .unavailable genericUnavailableDetail :=
  ⟨(c7_not_configured 0 "" [] (fun _ => []) .absent).2.2.2.1,
    (c7_not_configured 0 "" [] (fun _ => []) .absent).2.2.2.2.1 .typeError⟩

/-! ## Malformed reasoning-model output -/

/-- Counterexample to C8 as stated: unparseable content propagates the
`json.loads` error out of the selector, and content parsing to a
non-object raises `AttributeError` at `parsed.get` — the selector does
raise on malformed output. -/
theorem c8_counterexample :
    pickItemsWithLLM [⟨1, "Wallet", "", "", [], 0⟩] .invalid
        = .error .jsonDecodeError
    ∧ pickItemsWithLLM [⟨1, "Wallet", "", "", [], 0⟩] (.valid (.int 5))
        = .error .attributeError :=
  ⟨rfl, rfl⟩

/-- C8 (amended). Missing fields and absent/empty content default to an
empty message and empty pick list, and individually malformed identifiers
are discarded without raising; but content that is not parseable JSON,
or parses to a non-object, or carries a non-iterable pick-list field or a
non-string message field, makes the selector raise. -/
theorem c8_malformed_output (cands : List Candidate)
    (kvs : List (String × JValue)) :
    pickItemsWithLLM cands .absent
        = (if cands.isEmpty then Except.ok ⟨noCandidatesMessage, []⟩
            else .ok ⟨"", []⟩)
    ∧ (jsonLookup kvs "picked_item_ids" = none →
        jsonLookup kvs "friendly_response" = none →
        pickFromParsed (cands.map (·.id)) (.obj kvs) = .ok ⟨"", []⟩)
    ∧ (cands ≠ [] → pickItemsWithLLM cands .invalid = .error .jsonDecodeError)
    ∧ (∀ n : Int, cands ≠ [] →
        pickItemsWithLLM cands (.valid (.int n)) = .error .attributeError)
    ∧ (∀ q : Rat, pickFromParsed (cands.map (·.id))
        (.obj [("picked_item_ids", .float q)]) = .error .typeError)
    ∧ pickFromParsed (cands.map (·.id)) (.obj [("friendly_response", .null)])
        = .error .attributeError := by
  refine ⟨?_, ?_, ?_, ?_, ?_, rfl⟩
  · rw [pickItemsWithLLM]
    split <;> rfl
  · intro h1 h2
    simp only [pickFromParsed, h1, h2]
    rfl
  · intro h
    rw [pickItemsWithLLM, if_neg (by simpa [List.isEmpty_iff] using h)]
    rfl
  · intro n h
    rw [pickItemsWithLLM, if_neg (by simpa [List.isEmpty_iff] using h)]
    rfl
  · intro q
    rfl

/-- Witness for the amended C8: a concrete candidate list and an empty
parsed object, giving the defaulted empty result, and a concrete raise. -/
theorem c8_malformed_output_witness :
    pickFromParsed (([⟨1, "Wallet", "", "", [], 0⟩] : List Candidate).map (·.id))
        (.obj []) = .ok ⟨"", []⟩
    ∧ pickItemsWithLLM [⟨1, "Wallet", "", "", [], 0⟩] (.valid (.int 7))
        = .error .attributeError :=
  ⟨(c8_malformed_output [⟨1, "Wallet", "", "", [], 0⟩] []).2.1 rfl rfl,
    (c8_malformed_output [⟨1, "Wallet", "", "", [], 0⟩] []).2.2.2.1 7
      (by simp)⟩

/-! ## Provider client construction -/

/-- C9 (divergence evidence). `_get_openai_client` makes exactly one
constructor attempt, with the default transport and no `http_client`
kwarg, and returns whatever that attempt does — so a proxy-related
`ValueError` on the first attempt surfaces directly, with no fallback
attempt using a trust_env-disabled transport (contradicting the spec and
`test_get_openai_client_uses_httpx_fallback_on_proxy_value_error`). -/
theorem c9_no_proxy_fallback :
    (∀ (apiKey baseUrl : String)
        (construct : OpenAIClientArgs → Except String OpenAIClient),
        (getOpenaiClient apiKey baseUrl construct).2 = [⟨apiKey, baseUrl, none⟩]
        ∧ (getOpenaiClient apiKey baseUrl construct).1
            = construct ⟨apiKey, baseUrl, none⟩)
    ∧ getOpenaiClient "test-key" "https://api.example.local/v1"
        (fun _ => .error "Unsupported proxy URL scheme")
        = (.error "Unsupported proxy URL scheme",
            [⟨"test-key", "https://api.example.local/v1", none⟩]) :=
  ⟨fun _ _ _ => ⟨rfl, rfl⟩, rfl⟩

/-! ## Item serializer -/

/-- C10. Item create/update swallow any embedding-sync failure (and the
unconfigured case): the item and its normalized tags are persisted
exactly as without the sync, with the embedding unchanged (null on
create); a successful sync merely adds the vector. -/
theorem c10_serializer_swallows_sync_errors
    (embedOutcome : Except PyErr (List ℝ)) (e : PyErr) (v : List ℝ)
    (id : Int) (title description location : String) (tags : List String)
    (inst : Item) (patch : ItemPatch) (tagsOpt : Option (List String)) :
    itemSerializerCreate true (.error e) id title description location tags
        = ⟨id, title, description, location, normalizeTags tags, none⟩
    ∧ itemSerializerCreate false embedOutcome id title description location tags
        = ⟨id, title, description, location, normalizeTags tags, none⟩
    ∧ itemSerializerCreate true (.ok v) id title description location tags
        = ⟨id, title, description, location, normalizeTags tags, some v⟩
    ∧ itemSerializerUpdate true (.error e) inst patch tagsOpt
        = upsertTags (applyPatch inst patch) tagsOpt
    ∧ itemSerializerUpdate false embedOutcome inst patch tagsOpt
        = upsertTags (applyPatch inst patch) tagsOpt
    ∧ (upsertTags (applyPatch inst patch) tagsOpt).embedding = inst.embedding := by
  refine ⟨rfl, ?_, rfl, rfl, ?_, ?_⟩
  · cases embedOutcome <;> rfl
  · cases embedOutcome <;> rfl
  · cases tagsOpt <;> rfl

end Backend
